import Mathlib

/-!
# MaxPB protocol frame (`protos/Maxtrack_proto/protocol_frame.h`)

A shallow embedding of the wire-format header of the MaxPB telemetry protocol:
the sentinel and flag constants, the table of command identifiers, the
`PackageFormat_t` bitfield union, the `MaxPB_t` frame header and the
`MaxPB_Receiver_t` receiver record, followed by the properties proved about them.

Machine integers are natural numbers; a `uintN` value is a natural number below `2 ^ N`.
-/

namespace MaxPB

/-! ## Constants (lines 7-17 of the header) -/

def HEADER_VALUE : Nat := 0xAA55AA55

def CRYPTO_NONE : Nat := 0
def CRYPTO_AES128 : Nat := 1

def COMPRESS_NONE : Nat := 0
def COMPRESS_ZLIB : Nat := 1

def ACK_NOT_REQUIRED : Nat := 0
def ACK_REQUIRED : Nat := 1

/-! ## Command identifiers (lines 20-97 of the header) -/

def MAXPB_CMD_KEEP_ALIVE : Nat := 0x0000
def MAXPB_CMD_POSITION : Nat := 0x0001
def MAXPB_CMD_ACK : Nat := 0x0002
def MAXPB_CMD_NACK : Nat := 0x0003
def MAXPB_CMD_GENERATE_POSITION : Nat := 0x0004
def MAXPB_CMD_REQUEST_POSITION_LOG : Nat := 0x0005
def MAXPB_CMD_FILE_CHANGE : Nat := 0x0006
def MAXPB_CMD_FILE_REQUEST_DATA : Nat := 0x0007
def MAXPB_CMD_FILE_DATA : Nat := 0x0008
def MAXPB_CMD_FILE_ERASE : Nat := 0x0009
def MAXPB_CMD_FILE_CANCEL : Nat := 0x000A
def MAXPB_CMD_FILE_UPLOAD_INIT : Nat := 0x000B
def MAXPB_CMD_FILE_UPLOAD_REQUEST_DATA : Nat := 0x000C
def MAXPB_CMD_FILE_UPLOAD_DATA : Nat := 0x000D
def MAXPB_CMD_FILE_CHANGE_BY_DIFF : Nat := 0x000E
def MAXPB_CMD_REQUEST_STATUS : Nat := 0x0010
def MAXPB_CMD_STATUS : Nat := 0x0011
def MAXPB_CMD_MULTIPLE_REPORT_LORA : Nat := 0x0012
def MAXPB_CMD_REQUEST_SETUP : Nat := 0x0013
def MAXPB_CMD_SETUP_DATA : Nat := 0x0014
def MAXPB_CMD_REPORT_BLACKBOX : Nat := 0x0015
def MAXPB_CMD_REQUEST_POSITION_IN_RAM : Nat := 0x0016
def MAXPB_CMD_WRITE_RS232 : Nat := 0x0017
def MAXPB_CMD_OPEN_DATA_ADD : Nat := 0x0018
def MAXPB_CMD_ROUTER : Nat := 0x0019
def MAXPB_CMD_USER : Nat := 0x001A
def MAXPB_CMD_ACCELEROMETER_EVENT_DETAIL : Nat := 0x001B
def MAXPB_CMD_SCAN_OTHER_OPERATOR_CELLS : Nat := 0x001C
def MAXPB_CMD_SET_INPUT_COUNTER : Nat := 0x001D
def MAXPB_CMD_REQUEST_LORA_SETUP : Nat := 0x001E
def MAXPB_CMD_LORA_SETUP_DATA : Nat := 0x001F
def MAXPB_CMD_SETUP_DEFAULT : Nat := 0x0020
def MAXPB_CMD_PASSWORD : Nat := 0x0021
def MAXPB_CMD_PASSWORD_STORE : Nat := 0x0022
def MAXPB_CMD_SET_VARIABLES : Nat := 0x0023
def MAXPB_CMD_REQUEST_VARIABLES : Nat := 0x0024
def MAXPB_CMD_VARIABLES_DATA : Nat := 0x0025
def MAXPB_CMD_FORMAT_POSITION_LOG : Nat := 0x0026
def MAXPB_CMD_CLEAR_POSITION_LOG : Nat := 0x0027
def MAXPB_CMD_EXECUTE_EMBEDDED_ACTION : Nat := 0x0028
def MAXPB_CMD_SET_VARIABLES_ON_FLASH : Nat := 0x0029
def MAXPB_CMD_REQUEST_LORA_WAN_NWK_LIST : Nat := 0x002A
def MAXPB_CMD_LORA_WAN_NWK_LIST_DATA : Nat := 0x002B
def MAXPB_CMD_REQUEST_TX_PACKET : Nat := 0x002C
def MAXPB_CMD_CLEAR_ECU_INFO : Nat := 0x002D
def MAXPB_CMD_REQUEST_CUSTOM_REPORT_DATA : Nat := 0x002E
def MAXPB_CMD_REPORT_SIGFOX : Nat := 0x002F
def MAXPB_CMD_SET_POWER : Nat := 0x0030
def MAXPB_CMD_SET_OUTPUT : Nat := 0x0031
def MAXPB_CMD_SET_OPERATIONAL_STATE : Nat := 0x0032
def MAXPB_CMD_IGN_AUTO_CALIB : Nat := 0x0033
def MAXPB_CMD_ACC_RESTART_CALIB : Nat := 0x0034
def MAXPB_CMD_ACC_DEACTIVATE_CALIB : Nat := 0x0035
def MAXPB_CMD_DISCONNECT : Nat := 0x0036
def MAXPB_CMD_LORA_GATEWAY_CONTROL : Nat := 0x0037
def MAXPB_CMD_LORA_COMMAND : Nat := 0x0038
def MAXPB_CMD_SET_BLE_VARS : Nat := 0x0039
def MAXPB_CMD_START_BLUETOOTH : Nat := 0x003A
def MAXPB_CMD_FILE_EDIT : Nat := 0x003B
def MAXPB_CMD_FILE_EDIT_RESULT : Nat := 0x003C
def MAXPB_CMD_LOG_INFO_REQUEST : Nat := 0x003D
def MAXPB_CMD_LOG_INFO_DATA : Nat := 0x003E
def MAXPB_CMD_ACQUIRE_VEHICLE_SIGNATURE : Nat := 0x003F
def MAXPB_CMD_POS_CONNECT : Nat := 0x0106
def MAXPB_CMD_RS232_CONNECT : Nat := 0x0107
def MAXPB_CMD_CHANGE_SETUP : Nat := 0x0108
def MAXPB_CMD_CHANGE_MAXIO_SETUP : Nat := 0x010B
def MAXPB_CMD_KEEP_CHANNEL_OPEN : Nat := 0x0201
def MAXPB_CMD_YOU_CAN_CLOSE_CHANNEL : Nat := 0x0202

/-- One `#define MAXPB_CMD_*` line of the header: the identifier, its value and the
payload schema named by the trailing `//message <Schema>` comment, when the line has one. -/
structure CommandDef where
  name : String
  code : Nat
  schema : Option String

/-- The `#define MAXPB_CMD_*` lines of the header, in source order. -/
def commandTable : List CommandDef := [
  ⟨"MAXPB_CMD_KEEP_ALIVE", MAXPB_CMD_KEEP_ALIVE, some "BasicCommand"⟩,
  ⟨"MAXPB_CMD_POSITION", MAXPB_CMD_POSITION, some "MultipleReportData"⟩,
  ⟨"MAXPB_CMD_ACK", MAXPB_CMD_ACK, some "Ack"⟩,
  ⟨"MAXPB_CMD_NACK", MAXPB_CMD_NACK, some "Nack"⟩,
  ⟨"MAXPB_CMD_GENERATE_POSITION", MAXPB_CMD_GENERATE_POSITION, some "BasicCommand"⟩,
  ⟨"MAXPB_CMD_REQUEST_POSITION_LOG", MAXPB_CMD_REQUEST_POSITION_LOG, some "ReportDataLog"⟩,
  ⟨"MAXPB_CMD_FILE_CHANGE", MAXPB_CMD_FILE_CHANGE, some "FileCommand"⟩,
  ⟨"MAXPB_CMD_FILE_REQUEST_DATA", MAXPB_CMD_FILE_REQUEST_DATA, some "FileTransfer"⟩,
  ⟨"MAXPB_CMD_FILE_DATA", MAXPB_CMD_FILE_DATA, some "FileTransfer"⟩,
  ⟨"MAXPB_CMD_FILE_ERASE", MAXPB_CMD_FILE_ERASE, some "FileErase"⟩,
  ⟨"MAXPB_CMD_FILE_CANCEL", MAXPB_CMD_FILE_CANCEL, some "FileCommand"⟩,
  ⟨"MAXPB_CMD_FILE_UPLOAD_INIT", MAXPB_CMD_FILE_UPLOAD_INIT, some "FileCommand"⟩,
  ⟨"MAXPB_CMD_FILE_UPLOAD_REQUEST_DATA", MAXPB_CMD_FILE_UPLOAD_REQUEST_DATA, some "FileTransfer"⟩,
  ⟨"MAXPB_CMD_FILE_UPLOAD_DATA", MAXPB_CMD_FILE_UPLOAD_DATA, some "FileTransfer"⟩,
  ⟨"MAXPB_CMD_FILE_CHANGE_BY_DIFF", MAXPB_CMD_FILE_CHANGE_BY_DIFF, some "FileCommand"⟩,
  ⟨"MAXPB_CMD_REQUEST_STATUS", MAXPB_CMD_REQUEST_STATUS, some "BasicCommand"⟩,
  ⟨"MAXPB_CMD_STATUS", MAXPB_CMD_STATUS, some "ReportStatus"⟩,
  ⟨"MAXPB_CMD_MULTIPLE_REPORT_LORA", MAXPB_CMD_MULTIPLE_REPORT_LORA, some "MultipleReportLora"⟩,
  ⟨"MAXPB_CMD_REQUEST_SETUP", MAXPB_CMD_REQUEST_SETUP, some "BasicCommand"⟩,
  ⟨"MAXPB_CMD_SETUP_DATA", MAXPB_CMD_SETUP_DATA, some "ReportMaxConfig"⟩,
  ⟨"MAXPB_CMD_REPORT_BLACKBOX", MAXPB_CMD_REPORT_BLACKBOX, some "ReportBlackBox"⟩,
  ⟨"MAXPB_CMD_REQUEST_POSITION_IN_RAM", MAXPB_CMD_REQUEST_POSITION_IN_RAM, some "BasicCommand"⟩,
  ⟨"MAXPB_CMD_WRITE_RS232", MAXPB_CMD_WRITE_RS232, some "WriteRs232"⟩,
  ⟨"MAXPB_CMD_OPEN_DATA_ADD", MAXPB_CMD_OPEN_DATA_ADD, some "OpenDataAdd"⟩,
  ⟨"MAXPB_CMD_ROUTER", MAXPB_CMD_ROUTER, some "RoutePack"⟩,
  ⟨"MAXPB_CMD_USER", MAXPB_CMD_USER, some "UserCommand"⟩,
  ⟨"MAXPB_CMD_ACCELEROMETER_EVENT_DETAIL", MAXPB_CMD_ACCELEROMETER_EVENT_DETAIL, some "ReportAccelerometerEventDetail"⟩,
  ⟨"MAXPB_CMD_SCAN_OTHER_OPERATOR_CELLS", MAXPB_CMD_SCAN_OTHER_OPERATOR_CELLS, some "BasicCommand"⟩,
  ⟨"MAXPB_CMD_SET_INPUT_COUNTER", MAXPB_CMD_SET_INPUT_COUNTER, some "SetInputCounter"⟩,
  ⟨"MAXPB_CMD_REQUEST_LORA_SETUP", MAXPB_CMD_REQUEST_LORA_SETUP, some "BasicCommand"⟩,
  ⟨"MAXPB_CMD_LORA_SETUP_DATA", MAXPB_CMD_LORA_SETUP_DATA, some "ReportLoraConfigPeripherals"⟩,
  ⟨"MAXPB_CMD_SETUP_DEFAULT", MAXPB_CMD_SETUP_DEFAULT, some "BasicCommand"⟩,
  ⟨"MAXPB_CMD_PASSWORD", MAXPB_CMD_PASSWORD, some "PasswordEnter"⟩,
  ⟨"MAXPB_CMD_PASSWORD_STORE", MAXPB_CMD_PASSWORD_STORE, some "PasswordStore"⟩,
  ⟨"MAXPB_CMD_SET_VARIABLES", MAXPB_CMD_SET_VARIABLES, some "Variables"⟩,
  ⟨"MAXPB_CMD_REQUEST_VARIABLES", MAXPB_CMD_REQUEST_VARIABLES, some "BasicCommand"⟩,
  ⟨"MAXPB_CMD_VARIABLES_DATA", MAXPB_CMD_VARIABLES_DATA, some "Variables"⟩,
  ⟨"MAXPB_CMD_FORMAT_POSITION_LOG", MAXPB_CMD_FORMAT_POSITION_LOG, some "BasicCommand"⟩,
  ⟨"MAXPB_CMD_CLEAR_POSITION_LOG", MAXPB_CMD_CLEAR_POSITION_LOG, some "BasicCommand"⟩,
  ⟨"MAXPB_CMD_EXECUTE_EMBEDDED_ACTION", MAXPB_CMD_EXECUTE_EMBEDDED_ACTION, some "ExecuteEmbeddedAction"⟩,
  ⟨"MAXPB_CMD_SET_VARIABLES_ON_FLASH", MAXPB_CMD_SET_VARIABLES_ON_FLASH, some "Variables"⟩,
  ⟨"MAXPB_CMD_REQUEST_LORA_WAN_NWK_LIST", MAXPB_CMD_REQUEST_LORA_WAN_NWK_LIST, some "BasicCommand"⟩,
  ⟨"MAXPB_CMD_LORA_WAN_NWK_LIST_DATA", MAXPB_CMD_LORA_WAN_NWK_LIST_DATA, some "ReportLoraWANNetworkConfigList"⟩,
  ⟨"MAXPB_CMD_REQUEST_TX_PACKET", MAXPB_CMD_REQUEST_TX_PACKET, some "RequestTransmissionPacket"⟩,
  ⟨"MAXPB_CMD_CLEAR_ECU_INFO", MAXPB_CMD_CLEAR_ECU_INFO, some "BasicCommand"⟩,
  ⟨"MAXPB_CMD_REQUEST_CUSTOM_REPORT_DATA", MAXPB_CMD_REQUEST_CUSTOM_REPORT_DATA, some "BasicCommand"⟩,
  ⟨"MAXPB_CMD_REPORT_SIGFOX", MAXPB_CMD_REPORT_SIGFOX, some "SigfoxData"⟩,
  ⟨"MAXPB_CMD_SET_POWER", MAXPB_CMD_SET_POWER, some "SetPower"⟩,
  ⟨"MAXPB_CMD_SET_OUTPUT", MAXPB_CMD_SET_OUTPUT, some "SetOutput"⟩,
  ⟨"MAXPB_CMD_SET_OPERATIONAL_STATE", MAXPB_CMD_SET_OPERATIONAL_STATE, some "SetOperationalState"⟩,
  ⟨"MAXPB_CMD_IGN_AUTO_CALIB", MAXPB_CMD_IGN_AUTO_CALIB, some "BasicCommand"⟩,
  ⟨"MAXPB_CMD_ACC_RESTART_CALIB", MAXPB_CMD_ACC_RESTART_CALIB, some "BasicCommand"⟩,
  ⟨"MAXPB_CMD_ACC_DEACTIVATE_CALIB", MAXPB_CMD_ACC_DEACTIVATE_CALIB, some "BasicCommand"⟩,
  ⟨"MAXPB_CMD_DISCONNECT", MAXPB_CMD_DISCONNECT, some "Disconnect"⟩,
  ⟨"MAXPB_CMD_LORA_GATEWAY_CONTROL", MAXPB_CMD_LORA_GATEWAY_CONTROL, some "LoraGatewayCmd"⟩,
  ⟨"MAXPB_CMD_LORA_COMMAND", MAXPB_CMD_LORA_COMMAND, some "LoraCommand"⟩,
  ⟨"MAXPB_CMD_SET_BLE_VARS", MAXPB_CMD_SET_BLE_VARS, some "SetBleVars"⟩,
  ⟨"MAXPB_CMD_START_BLUETOOTH", MAXPB_CMD_START_BLUETOOTH, some "BasicCommand"⟩,
  ⟨"MAXPB_CMD_FILE_EDIT", MAXPB_CMD_FILE_EDIT, some "FileEdit"⟩,
  ⟨"MAXPB_CMD_FILE_EDIT_RESULT", MAXPB_CMD_FILE_EDIT_RESULT, some "FileEditResult"⟩,
  ⟨"MAXPB_CMD_LOG_INFO_REQUEST", MAXPB_CMD_LOG_INFO_REQUEST, some "BasicCommand"⟩,
  ⟨"MAXPB_CMD_LOG_INFO_DATA", MAXPB_CMD_LOG_INFO_DATA, some "ReportLogInfo"⟩,
  ⟨"MAXPB_CMD_ACQUIRE_VEHICLE_SIGNATURE", MAXPB_CMD_ACQUIRE_VEHICLE_SIGNATURE, some "BasicCommand"⟩,
  ⟨"MAXPB_CMD_POS_CONNECT", MAXPB_CMD_POS_CONNECT, some "BasicCommand"⟩,
  ⟨"MAXPB_CMD_RS232_CONNECT", MAXPB_CMD_RS232_CONNECT, some "BasicCommand"⟩,
  ⟨"MAXPB_CMD_CHANGE_SETUP", MAXPB_CMD_CHANGE_SETUP, some "ChangeMaxConfig"⟩,
  ⟨"MAXPB_CMD_CHANGE_MAXIO_SETUP", MAXPB_CMD_CHANGE_MAXIO_SETUP, some "ChangeMaxIOConfig"⟩,
  ⟨"MAXPB_CMD_KEEP_CHANNEL_OPEN", MAXPB_CMD_KEEP_CHANNEL_OPEN, none⟩,
  ⟨"MAXPB_CMD_YOU_CAN_CLOSE_CHANNEL", MAXPB_CMD_YOU_CAN_CLOSE_CHANNEL, none⟩]

/-- The defined command codes, in source order. -/
def commandCodes : List Nat := commandTable.map (fun d => d.code)

/-- The payload schema the header annotates a command code with: the schema of the
first `#define` line carrying that code. -/
def payloadSchema (code : Nat) : Option String :=
  (commandTable.find? (fun d => d.code == code)).bind (fun d => d.schema)

/-- The ranges of command codes listed for the external interface:
`0x0000..0x0003`, `0x0004..0x003F`, `0x0106..0x010B` and `0x0201`, `0x0202`. -/
def inListedRange (c : Nat) : Bool :=
  (0x0000 ≤ c && c ≤ 0x0003) || (0x0004 ≤ c && c ≤ 0x003F) ||
  (0x0106 ≤ c && c ≤ 0x010B) || c == 0x0201 || c == 0x0202

/-! ## `PackageFormat_t` (lines 99-110 of the header)

The union overlays `uint16 value` with the bitfield struct `info`. The bitfields are
allocated from the least significant bit of the 16-bit unit, in declaration order. -/

/-- Widths of the bitfields of `PackageFormat_t.info`, in declaration order:
`cryptoType:3`, `rfu1:1`, `compressType:2`, `rfu2:9`, `ackRequired:1`. -/
def infoWidths : List Nat := [3, 1, 2, 9, 1]

/-- Width of the `k`-th declared bitfield. -/
def bitWidth (k : Nat) : Nat := infoWidths.getD k 0

/-- First bit of the `k`-th declared bitfield: the widths declared before it, summed. -/
def bitOffset (k : Nat) : Nat := (infoWidths.take k).sum

/-- Reading the `k`-th bitfield out of the 16-bit unit `v`. -/
def readField (v k : Nat) : Nat := (v / 2 ^ bitOffset k) % 2 ^ bitWidth k

/-- Storing `x` into the `k`-th bitfield of an all-zero unit: the value is truncated to
the width of the field and shifted to the first bit of the field. -/
def placeField (x k : Nat) : Nat := (x % 2 ^ bitWidth k) * 2 ^ bitOffset k

/-- The `info` view of `PackageFormat_t`. -/
structure PackageFormat_info where
  cryptoType : Nat
  rfu1 : Nat
  compressType : Nat
  rfu2 : Nat
  ackRequired : Nat
  deriving DecidableEq, Repr

/-- The union `PackageFormat_t`, held as its 16-bit `value` member. -/
structure PackageFormat_t where
  value : Nat
  deriving DecidableEq, Repr

/-- The `info` member of the union, read from the shared 16 bits. -/
def PackageFormat_t.info (f : PackageFormat_t) : PackageFormat_info :=
  { cryptoType := readField f.value 0
    rfu1 := readField f.value 1
    compressType := readField f.value 2
    rfu2 := readField f.value 3
    ackRequired := readField f.value 4 }

/-- The union written through its `info` member. -/
def PackageFormat_t.ofInfo (i : PackageFormat_info) : PackageFormat_t :=
  { value := placeField i.cryptoType 0 + placeField i.rfu1 1 + placeField i.compressType 2
      + placeField i.rfu2 3 + placeField i.ackRequired 4 }

/-- The three meaningful fields of a format value: `cryptoType`, `compressType`, `ackRequired`. -/
def decodeFormat (v : Nat) : Nat × Nat × Nat :=
  let i := PackageFormat_t.info ⟨v⟩
  (i.cryptoType, i.compressType, i.ackRequired)

/-- Bit `i` of the 16-bit unit belongs to the `k`-th bitfield. -/
def bitInField (i k : Nat) : Bool := bitOffset k ≤ i && i < bitOffset k + bitWidth k

/-! ## `MaxPB_t` (lines 112-120 of the header) -/

/-- A member of a C struct: its name, size and alignment in bytes. -/
structure CField where
  name : String
  size : Nat
  align : Nat

/-- Modelled from the spec: the typedef `uint32` is not declared in the header; it is a
32-bit integer with natural alignment. -/
def sizeof_uint32 : Nat := 4

/-- Modelled from the spec: the typedef `uint16` is not declared in the header; it is a
16-bit integer with natural alignment. -/
def sizeof_uint16 : Nat := 2

/-- Modelled from the spec: the typedef `uint8` is not declared in the header; it is an
8-bit integer. -/
def sizeof_uint8 : Nat := 1

/-- Size of the bitfield struct `info`: the declared widths packed into `uint16` units. -/
def sizeof_info : Nat :=
  (infoWidths.sum + 8 * sizeof_uint16 - 1) / (8 * sizeof_uint16) * sizeof_uint16

/-- Size of the union `PackageFormat_t`: the larger of its members `value` and `info`. -/
def sizeof_PackageFormat_t : Nat := max sizeof_uint16 sizeof_info

/-- The members of `MaxPB_t` in declaration order; the flexible array `data[]` has size 0. -/
def MaxPB_t_fields : List CField := [
  ⟨"header", sizeof_uint32, sizeof_uint32⟩,
  ⟨"size", sizeof_uint16, sizeof_uint16⟩,
  ⟨"crc", sizeof_uint16, sizeof_uint16⟩,
  ⟨"message_type", sizeof_uint16, sizeof_uint16⟩,
  ⟨"format", sizeof_PackageFormat_t, sizeof_uint16⟩,
  ⟨"data", 0, sizeof_uint8⟩]

/-- The least multiple of `a` that is at least `off`. -/
def alignUp (off a : Nat) : Nat := (off + a - 1) / a * a

/-- Offsets of the members of a struct laid out from byte `off`: each member is placed
at the first offset, at or after the end of the previous member, that its alignment divides. -/
def fieldOffsets : Nat → List CField → List Nat
  | _, [] => []
  | off, f :: fs => alignUp off f.align :: fieldOffsets (alignUp off f.align + f.size) fs

/-- Offsets of the members when they are packed back to back, without any padding. -/
def packedOffsets : Nat → List CField → List Nat
  | _, [] => []
  | off, f :: fs => off :: packedOffsets (off + f.size) fs

/-- The frame header as a record: the fixed fields of `MaxPB_t` and the payload `data`. -/
structure MaxPB_t where
  header : Nat
  size : Nat
  crc : Nat
  message_type : Nat
  format : PackageFormat_t
  data : List Nat
  deriving DecidableEq, Repr

/-! ## `MaxPB_Receiver_t` (lines 122-129 of the header) and the stream reassembler

The header declares the receiver record only. The reassembler that runs on it is
modelled from the description of the streaming frame decoder: its four states, its
`feed` operation and its events. -/

/-- Modelled from the spec: the phases held in the `state` member of the receiver, which
the header declares as a bare `uint8_t`: `Seeking`, `HeaderFound`, `AwaitingPayload`
and `Complete`. -/
inductive ReceiverState where
  | Seeking
  | HeaderFound
  | AwaitingPayload
  | Complete
  deriving DecidableEq, Repr

/-- The receiver record; `buffer` points to the bytes accumulated so far. -/
structure MaxPB_Receiver_t where
  buffer : List Nat
  state : ReceiverState
  size : Nat
  max_size : Nat
  waiting_size : Nat
  deriving DecidableEq, Repr

/-- Modelled from the spec: the reasons a frame or a stretch of input is rejected for. -/
inductive RejectReason where
  | ChecksumMismatch
  | SizeOutOfBounds
  | DesyncNoise
  deriving DecidableEq, Repr

/-- Modelled from the spec: the events `feed` reports, `FrameReady(Frame)` and
`FrameRejected(reason)`. -/
inductive FrameEvent where
  | FrameReady (frame : MaxPB_t)
  | FrameRejected (reason : RejectReason)
  deriving DecidableEq, Repr

/-- Modelled from the spec: what the reassembler consumes from its collaborators, a
checksum function and the scan ceiling of the `Seeking` state (`max_size` is a member of
the receiver record). -/
structure ReassemblerConfig where
  checksum : List Nat → Nat
  scan_ceiling : Nat

/-- Modelled from the spec: the sentinel as it travels on the wire, the four bytes of
`HEADER_VALUE` with the most significant first (`AA 55 AA 55`). -/
def headerBytes : List Nat :=
  [HEADER_VALUE / 2 ^ 24 % 256, HEADER_VALUE / 2 ^ 16 % 256, HEADER_VALUE / 2 ^ 8 % 256,
    HEADER_VALUE % 256]

/-- The byte count of the fixed-header region: `header`, `size`, `crc`, `message_type`
and `format`, back to back. -/
def fixedHeaderSize : Nat := sizeof_uint32 + 4 * sizeof_uint16

/-- The sentinel occurs in `l` starting at offset `i`. -/
def sentinelAt (l : List Nat) (i : Nat) : Prop := (l.drop i).take 4 = headerBytes

instance (l : List Nat) (i : Nat) : Decidable (sentinelAt l i) :=
  inferInstanceAs (Decidable ((l.drop i).take 4 = headerBytes))

/-- Modelled from the spec: the last `n` bytes of a buffer, all of it when it is shorter. -/
def keepLast (n : Nat) (l : List Nat) : List Nat := l.drop (l.length - n)

/-- Modelled from the spec: the scan of the `Seeking` state. The bytes before the first
occurrence of the sentinel are discarded and the rest, sentinel first, is returned;
`none` when the sentinel does not occur. -/
def seek : List Nat → Option (List Nat)
  | [] => none
  | b :: rest => if (b :: rest).take 4 = headerBytes then some (b :: rest) else seek rest

/-- A 16-bit field read from two bytes, most significant first. -/
def be16 (hi lo : Nat) : Nat := hi % 256 * 256 + lo % 256

/-- Modelled from the spec: the `size` field of a buffered frame, bytes 4 and 5. -/
def frameSize (buf : List Nat) : Nat := be16 (buf.getD 4 0) (buf.getD 5 0)

/-- Modelled from the spec: the `crc` field of a buffered frame, bytes 6 and 7, low byte
first (`<crc_lo> <crc_hi>`). -/
def frameCrc (buf : List Nat) : Nat := be16 (buf.getD 7 0) (buf.getD 6 0)

/-- Modelled from the spec: the frame at the front of the buffer, with a payload of
`size` bytes. -/
def decodeFrame (buf : List Nat) (size : Nat) : MaxPB_t :=
  { header := be16 (buf.getD 0 0) (buf.getD 1 0) * 65536 + be16 (buf.getD 2 0) (buf.getD 3 0)
    size := size
    crc := frameCrc buf
    message_type := be16 (buf.getD 8 0) (buf.getD 9 0)
    format := ⟨be16 (buf.getD 10 0) (buf.getD 11 0)⟩
    data := (buf.drop fixedHeaderSize).take size }

/-- Modelled from the spec: the bytes the checksum covers, `message_type`, `format` and
`data[0..size)`. -/
def checksumRegion (buf : List Nat) (size : Nat) : List Nat := (buf.drop 8).take (4 + size)

/-- Modelled from the spec: one transition of the state machine of the reassembler on the
bytes buffered so far, with the events it reports; `none` when the current phase needs
more bytes than are buffered.

* `Seeking`: on a match of the sentinel, the bytes before it are discarded and the phase
  becomes `HeaderFound`.
* `HeaderFound`: once the fixed-header region is buffered, `size` is read; a frame of
  size 0 is `Complete` at once, any other goes to `AwaitingPayload`.
* `AwaitingPayload`: a `size` above `max_size` rejects the frame with `SizeOutOfBounds`
  and returns to `Seeking` past the header region, without buffering a payload;
  otherwise the phase is `Complete` once `size` payload bytes are buffered.
* `Complete`: the checksum is recomputed and compared, the frame is reported as
  `FrameReady` or rejected with `ChecksumMismatch`, and `Seeking` resumes at the byte
  after the frame. -/
def step (cfg : ReassemblerConfig) (r : MaxPB_Receiver_t) :
    Option (MaxPB_Receiver_t × List FrameEvent) :=
  match r.state with
  | .Seeking =>
    match seek r.buffer with
    | some rest => some ({ r with buffer := rest, state := .HeaderFound }, [])
    | none => none
  | .HeaderFound =>
    if fixedHeaderSize ≤ r.buffer.length then
      if frameSize r.buffer = 0 then
        some ({ r with state := .Complete, size := 0 }, [])
      else
        some ({ r with state := .AwaitingPayload, size := frameSize r.buffer }, [])
    else none
  | .AwaitingPayload =>
    if r.max_size < r.size then
      some ({ r with buffer := r.buffer.drop fixedHeaderSize, state := .Seeking },
        [.FrameRejected .SizeOutOfBounds])
    else if fixedHeaderSize + r.size ≤ r.buffer.length then
      some ({ r with state := .Complete }, [])
    else none
  | .Complete =>
    some ({ r with buffer := r.buffer.drop (fixedHeaderSize + r.size), state := .Seeking },
      [if cfg.checksum (checksumRegion r.buffer r.size) = frameCrc r.buffer
        then .FrameReady (decodeFrame r.buffer r.size)
        else .FrameRejected .ChecksumMismatch])

/-- Modelled from the spec: what the reassembler does when the current phase cannot
advance. In `Seeking`, a buffer longer than the scan ceiling is cut down to its last 3
bytes and the noise is reported; in `HeaderFound` and `AwaitingPayload`, `waiting_size`
is set to the bytes still outstanding. -/
def settle (cfg : ReassemblerConfig) (r : MaxPB_Receiver_t) :
    MaxPB_Receiver_t × List FrameEvent :=
  match r.state with
  | .Seeking =>
    if cfg.scan_ceiling < r.buffer.length then
      ({ r with buffer := keepLast 3 r.buffer }, [.FrameRejected .DesyncNoise])
    else (r, [])
  | .HeaderFound => ({ r with waiting_size := fixedHeaderSize - r.buffer.length }, [])
  | .AwaitingPayload =>
    ({ r with waiting_size := fixedHeaderSize + r.size - r.buffer.length }, [])
  | .Complete => (r, [])

/-- Modelled from the spec: the state machine driven forward as far as the buffered
bytes allow, for at most `fuel` transitions. -/
def drive (cfg : ReassemblerConfig) : Nat → MaxPB_Receiver_t → MaxPB_Receiver_t × List FrameEvent
  | 0, r => settle cfg r
  | fuel + 1, r =>
    match step cfg r with
    | none => settle cfg r
    | some (r1, e1) => ((drive cfg fuel r1).1, e1 ++ (drive cfg fuel r1).2)

/-- The receiver with `chunk` appended to its buffer. -/
def push (r : MaxPB_Receiver_t) (chunk : List Nat) : MaxPB_Receiver_t :=
  { r with buffer := r.buffer ++ chunk }

/-- Modelled from the spec: `feed(chunk)`. The chunk is appended to the buffer and the
state machine is driven as far as the buffered bytes allow; four transitions per
buffered byte, and four more, are enough for that. -/
def feed (cfg : ReassemblerConfig) (r : MaxPB_Receiver_t) (chunk : List Nat) :
    MaxPB_Receiver_t × List FrameEvent :=
  drive cfg (4 * (r.buffer.length + chunk.length) + 4) (push r chunk)

/-- The chunks fed one after another, with the events of all the calls in order. -/
def feedAll (cfg : ReassemblerConfig) :
    MaxPB_Receiver_t → List (List Nat) → MaxPB_Receiver_t × List FrameEvent
  | r, [] => (r, [])
  | r, chunk :: rest =>
    ((feedAll cfg (feed cfg r chunk).1 rest).1,
      (feed cfg r chunk).2 ++ (feedAll cfg (feed cfg r chunk).1 rest).2)

/-- Modelled from the spec: the receiver before any byte has arrived, `Seeking` on an
empty buffer. -/
def initReceiver (max_size : Nat) : MaxPB_Receiver_t :=
  { buffer := [], state := .Seeking, size := 0, max_size := max_size, waiting_size := 0 }

/-- The frames of the `FrameReady` events of a sequence of events, in order. -/
def framesReady (evs : List FrameEvent) : List MaxPB_t :=
  evs.filterMap (fun e => match e with
    | .FrameReady f => some f
    | .FrameRejected _ => none)

/-- A checksum for the examples: the sum of the covered bytes, as a 16-bit value. -/
def sumChecksum (bytes : List Nat) : Nat := bytes.sum % 65536

/-! ## Auxiliary notions for reasoning about the reassembler -/

/-- How far a phase is from the end of its frame: `Seeking` 3, `HeaderFound` 2,
`AwaitingPayload` 1, `Complete` 0. -/
def phaseRank : ReceiverState → Nat
  | .Seeking => 3
  | .HeaderFound => 2
  | .AwaitingPayload => 1
  | .Complete => 0

/-- A bound on the transitions the state machine can still make on the buffered bytes. -/
def stepBudget (r : MaxPB_Receiver_t) : Nat := 4 * r.buffer.length + phaseRank r.state

/-- The buffer holds what the phase says has been received: the fixed-header region in
`AwaitingPayload`, the whole frame in `Complete`. -/
def Buffered (r : MaxPB_Receiver_t) : Prop :=
  match r.state with
  | .Seeking => True
  | .HeaderFound => True
  | .AwaitingPayload => fixedHeaderSize ≤ r.buffer.length
  | .Complete => fixedHeaderSize + r.size ≤ r.buffer.length

/-- Two receivers that no continuation of the stream tells apart: the same phase, `size`
and `max_size`, and the same buffer, or while `Seeking`, buffers the scan treats alike
whatever bytes follow. `waiting_size` is not compared. -/
def Similar (r r' : MaxPB_Receiver_t) : Prop :=
  r.state = r'.state ∧ r.size = r'.size ∧ r.max_size = r'.max_size ∧
    if r.state = .Seeking then ∀ c, seek (r.buffer ++ c) = seek (r'.buffer ++ c)
    else r.buffer = r'.buffer

/-- The state machine run to the point where it needs more bytes: `Drives cfg r t evs`
holds when the transitions from `r` end in `t`, settled, having reported `evs`. -/
inductive Drives (cfg : ReassemblerConfig) :
    MaxPB_Receiver_t → MaxPB_Receiver_t → List FrameEvent → Prop
  | halt {r : MaxPB_Receiver_t} (h : step cfg r = none) :
      Drives cfg r (settle cfg r).1 (settle cfg r).2
  | next {r r1 t : MaxPB_Receiver_t} {e1 e : List FrameEvent} (h : step cfg r = some (r1, e1))
      (hd : Drives cfg r1 t e) : Drives cfg r t (e1 ++ e)

/-! ## The frame layout and the command table -/

theorem commandCodes_nodup : commandCodes.Nodup := by decide

/-- C1: with `uint32`, `uint16` and `uint8` as 32-, 16- and 8-bit integers with natural
alignment, the members of `MaxPB_t` are laid out in the order `header`, `size`, `crc`,
`message_type`, `format`, `data` at byte offsets 0, 4, 6, 8, 10 and 12; the aligned layout
is the packed one, so there is no padding, and the fixed-header region is
4 + 2 + 2 + 2 + 2 = 12 bytes, where the payload `data[]` starts. -/
theorem MaxPB_t_layout :
    MaxPB_t_fields.map (fun f => f.name) =
      ["header", "size", "crc", "message_type", "format", "data"] ∧
    MaxPB_t_fields.map (fun f => f.size) = [4, 2, 2, 2, 2, 0] ∧
    fieldOffsets 0 MaxPB_t_fields = [0, 4, 6, 8, 10, 12] ∧
    fieldOffsets 0 MaxPB_t_fields = packedOffsets 0 MaxPB_t_fields ∧
    (MaxPB_t_fields.map (fun f => f.size)).sum = 12 ∧
    fixedHeaderSize = 12 := by
  refine ⟨rfl, by decide, by decide, by decide, by decide, by decide⟩

/-- C3: the named command constants have the listed wire values. -/
theorem command_wire_values :
    MAXPB_CMD_KEEP_ALIVE = 0x0000 ∧ MAXPB_CMD_POSITION = 0x0001 ∧ MAXPB_CMD_ACK = 0x0002 ∧
    MAXPB_CMD_NACK = 0x0003 ∧ MAXPB_CMD_KEEP_CHANNEL_OPEN = 0x0201 ∧
    MAXPB_CMD_YOU_CAN_CLOSE_CHANNEL = 0x0202 := by
  decide

/-- C4: every command code defined in the header is a 16-bit value inside one of the
listed ranges `0x0000..0x0003`, `0x0004..0x003F`, `0x0106..0x010B`, `0x0201`, `0x0202`. -/
theorem command_codes_in_listed_ranges (c : Nat) (hc : c ∈ commandCodes) :
    c < 65536 ∧ inListedRange c = true := by
  revert c
  decide

theorem command_codes_in_listed_ranges_witness :
    MAXPB_CMD_CHANGE_MAXIO_SETUP ∈ commandCodes ∧
    (MAXPB_CMD_CHANGE_MAXIO_SETUP < 65536 ∧ inListedRange MAXPB_CMD_CHANGE_MAXIO_SETUP = true) :=
  ⟨by decide, command_codes_in_listed_ranges MAXPB_CMD_CHANGE_MAXIO_SETUP (by decide)⟩

/-- C5, as stated, fails: the codes `MAXPB_CMD_KEEP_ALIVE` and `MAXPB_CMD_GENERATE_POSITION`
are distinct and are both annotated with the schema `BasicCommand`, and
`MAXPB_CMD_KEEP_CHANNEL_OPEN` is defined without a schema annotation. -/
theorem payloadSchema_not_one_to_one :
    (MAXPB_CMD_KEEP_ALIVE ∈ commandCodes ∧ MAXPB_CMD_GENERATE_POSITION ∈ commandCodes ∧
      MAXPB_CMD_KEEP_ALIVE ≠ MAXPB_CMD_GENERATE_POSITION ∧
      payloadSchema MAXPB_CMD_KEEP_ALIVE = some "BasicCommand" ∧
      payloadSchema MAXPB_CMD_GENERATE_POSITION = some "BasicCommand") ∧
    (MAXPB_CMD_KEEP_CHANNEL_OPEN ∈ commandCodes ∧
      payloadSchema MAXPB_CMD_KEEP_CHANNEL_OPEN = none) := by
  refine ⟨⟨by decide, by decide, by decide, rfl, rfl⟩, by decide, rfl⟩

/-- C5, amended: every defined command code other than `MAXPB_CMD_KEEP_CHANNEL_OPEN` and
`MAXPB_CMD_YOU_CAN_CLOSE_CHANNEL` is annotated with a payload schema, those two carry
none, and a code determines its schema: two lines of the table with the same code carry
the same annotation. -/
theorem payloadSchema_defined (c : Nat) (hc : c ∈ commandCodes) :
    (c ≠ MAXPB_CMD_KEEP_CHANNEL_OPEN → c ≠ MAXPB_CMD_YOU_CAN_CLOSE_CHANNEL →
      (payloadSchema c).isSome = true) ∧
    payloadSchema MAXPB_CMD_KEEP_CHANNEL_OPEN = none ∧
    payloadSchema MAXPB_CMD_YOU_CAN_CLOSE_CHANNEL = none ∧
    (∀ d ∈ commandTable, ∀ e ∈ commandTable, d.code = c → e.code = c → d.schema = e.schema) := by
  refine ⟨?_, rfl, rfl, ?_⟩
  · revert c
    decide
  · intro d hd e he h1 h2
    have := List.inj_on_of_nodup_map commandCodes_nodup hd he (h1.trans h2.symm)
    rw [this]

theorem payloadSchema_defined_witness :
    MAXPB_CMD_POSITION ∈ commandCodes ∧
    ((MAXPB_CMD_POSITION ≠ MAXPB_CMD_KEEP_CHANNEL_OPEN →
        MAXPB_CMD_POSITION ≠ MAXPB_CMD_YOU_CAN_CLOSE_CHANNEL →
        (payloadSchema MAXPB_CMD_POSITION).isSome = true) ∧
      payloadSchema MAXPB_CMD_KEEP_CHANNEL_OPEN = none ∧
      payloadSchema MAXPB_CMD_YOU_CAN_CLOSE_CHANNEL = none ∧
      (∀ d ∈ commandTable, ∀ e ∈ commandTable, d.code = MAXPB_CMD_POSITION →
        e.code = MAXPB_CMD_POSITION → d.schema = e.schema)) :=
  ⟨by decide, payloadSchema_defined MAXPB_CMD_POSITION (by decide)⟩

/-- C9: the wire values of the `MAXPB_CMD_*` constants are pairwise distinct: the list of
the 69 defined codes has no repetition, and two lines of the table with different names
have different values. -/
theorem command_codes_distinct :
    commandCodes.length = 69 ∧ commandCodes.Nodup ∧
    ∀ d ∈ commandTable, ∀ e ∈ commandTable, d.name ≠ e.name → d.code ≠ e.code := by
  refine ⟨rfl, commandCodes_nodup, ?_⟩
  intro d hd e he hne hcode
  exact hne (by rw [List.inj_on_of_nodup_map commandCodes_nodup hd he hcode])

/-! ## The format bitfield -/

theorem info_eq (v : Nat) : PackageFormat_t.info ⟨v⟩ =
    ⟨v % 8, v / 8 % 2, v / 16 % 4, v / 64 % 512, v / 32768 % 2⟩ := by
  simp [PackageFormat_t.info, readField, bitOffset, bitWidth, infoWidths]

theorem ofInfo_eq (c r1 z r2 a : Nat) : PackageFormat_t.ofInfo ⟨c, r1, z, r2, a⟩ =
    ⟨c % 8 + r1 % 2 * 8 + z % 4 * 16 + r2 % 512 * 64 + a % 2 * 32768⟩ := by
  simp [PackageFormat_t.ofInfo, placeField, bitOffset, bitWidth, infoWidths]

/-- C2: for a 16-bit format value `v`, with the bitfields allocated from the least
significant bit in declaration order, `cryptoType` is `v mod 8`, `rfu1` is bit 3,
`compressType` is `(v / 16) mod 4`, `rfu2` is bits 6..14 and `ackRequired` is
`v / 32768`; the declared widths sum to 16 and every one of the 16 bits lies in exactly
one field. -/
theorem info_bit_positions (v : Nat) (hv : v < 65536) :
    (PackageFormat_t.info ⟨v⟩).cryptoType = v % 8 ∧
    (PackageFormat_t.info ⟨v⟩).rfu1 = v / 8 % 2 ∧
    (PackageFormat_t.info ⟨v⟩).compressType = v / 16 % 4 ∧
    (PackageFormat_t.info ⟨v⟩).rfu2 = v / 64 % 512 ∧
    (PackageFormat_t.info ⟨v⟩).ackRequired = v / 32768 ∧
    infoWidths.sum = 16 ∧
    (List.range 5).map bitOffset = [0, 3, 4, 6, 15] ∧
    (∀ i, i < 16 → ∃ k, k < infoWidths.length ∧ bitInField i k = true ∧
        ∀ j, j < infoWidths.length → bitInField i j = true → j = k) := by
  rw [info_eq]
  refine ⟨rfl, rfl, rfl, rfl, ?_, by decide, by decide, by decide⟩
  show v / 32768 % 2 = v / 32768
  omega

theorem info_bit_positions_witness :
    0xB5A7 < 65536 ∧
    ((PackageFormat_t.info ⟨0xB5A7⟩).cryptoType = 0xB5A7 % 8 ∧
    (PackageFormat_t.info ⟨0xB5A7⟩).rfu1 = 0xB5A7 / 8 % 2 ∧
    (PackageFormat_t.info ⟨0xB5A7⟩).compressType = 0xB5A7 / 16 % 4 ∧
    (PackageFormat_t.info ⟨0xB5A7⟩).rfu2 = 0xB5A7 / 64 % 512 ∧
    (PackageFormat_t.info ⟨0xB5A7⟩).ackRequired = 0xB5A7 / 32768 ∧
    infoWidths.sum = 16 ∧
    (List.range 5).map bitOffset = [0, 3, 4, 6, 15] ∧
    (∀ i, i < 16 → ∃ k, k < infoWidths.length ∧ bitInField i k = true ∧
        ∀ j, j < infoWidths.length → bitInField i j = true → j = k)) :=
  ⟨by decide, info_bit_positions 0xB5A7 (by decide)⟩

/-- C6: decoding a format value into `cryptoType`, `compressType` and `ackRequired` is
defined on every value, with each component inside its field, and ignores the reserved
bits: two values that agree on bits 0..2, 4..5 and 15 decode to the same triple,
whatever bits 3 and 6..14 hold. -/
theorem decodeFormat_ignores_reserved (v w : Nat)
    (h : ∀ i ∈ [0, 1, 2, 4, 5, 15], v.testBit i = w.testBit i) :
    decodeFormat v = decodeFormat w ∧
    (decodeFormat v).1 < 8 ∧ (decodeFormat v).2.1 < 4 ∧ (decodeFormat v).2.2 < 2 := by
  have e0 := h 0 (by simp)
  have e1 := h 1 (by simp)
  have e2 := h 2 (by simp)
  have e4 := h 4 (by simp)
  have e5 := h 5 (by simp)
  have e15 := h 15 (by simp)
  simp only [Nat.testBit_to_div_mod, decide_eq_decide] at e0 e1 e2 e4 e5 e15
  norm_num at e0 e1 e2 e4 e5 e15
  clear h
  simp only [decodeFormat, info_eq, Prod.mk.injEq]
  omega

theorem decodeFormat_ignores_reserved_witness :
    (∀ i ∈ [0, 1, 2, 4, 5, 15], (0xFFD9).testBit i = (0x8011).testBit i) ∧
    (decodeFormat 0xFFD9 = decodeFormat 0x8011 ∧
      (decodeFormat 0xFFD9).1 < 8 ∧ (decodeFormat 0xFFD9).2.1 < 4 ∧
      (decodeFormat 0xFFD9).2.2 < 2) :=
  ⟨by decide, decodeFormat_ignores_reserved 0xFFD9 0x8011 (by decide)⟩

/-- C10: the two views of `PackageFormat_t` round-trip. Five fields inside their widths,
packed into the 16-bit value and read back, are unchanged; a 16-bit value split into the
five fields and packed again is unchanged; and the constants `CRYPTO_AES128`,
`COMPRESS_ZLIB` and `ACK_REQUIRED` fit their fields and read back unchanged. -/
theorem PackageFormat_roundtrip (c r1 z r2 a v : Nat) (hc : c < 8) (hr1 : r1 < 2) (hz : z < 4)
    (hr2 : r2 < 512) (ha : a < 2) (hv : v < 65536) :
    (PackageFormat_t.ofInfo ⟨c, r1, z, r2, a⟩).info = ⟨c, r1, z, r2, a⟩ ∧
    (PackageFormat_t.ofInfo ⟨c, r1, z, r2, a⟩).value < 65536 ∧
    PackageFormat_t.ofInfo (PackageFormat_t.info ⟨v⟩) = ⟨v⟩ ∧
    (CRYPTO_AES128 < 2 ^ bitWidth 0 ∧ COMPRESS_ZLIB < 2 ^ bitWidth 2 ∧
      ACK_REQUIRED < 2 ^ bitWidth 4) ∧
    (PackageFormat_t.ofInfo ⟨CRYPTO_AES128, r1, COMPRESS_ZLIB, r2, ACK_REQUIRED⟩).info =
      ⟨CRYPTO_AES128, r1, COMPRESS_ZLIB, r2, ACK_REQUIRED⟩ := by
  refine ⟨?_, ?_, ?_, by decide, ?_⟩
  · rw [ofInfo_eq, info_eq, PackageFormat_info.mk.injEq]
    omega
  · rw [ofInfo_eq]
    show c % 8 + r1 % 2 * 8 + z % 4 * 16 + r2 % 512 * 64 + a % 2 * 32768 < 65536
    omega
  · rw [info_eq, ofInfo_eq, PackageFormat_t.mk.injEq]
    omega
  · rw [ofInfo_eq, info_eq, PackageFormat_info.mk.injEq]
    simp only [CRYPTO_AES128, COMPRESS_ZLIB, ACK_REQUIRED]
    omega

theorem PackageFormat_roundtrip_witness :
    (PackageFormat_t.ofInfo ⟨5, 1, 2, 300, 1⟩).info = ⟨5, 1, 2, 300, 1⟩ ∧
    (PackageFormat_t.ofInfo ⟨5, 1, 2, 300, 1⟩).value < 65536 ∧
    PackageFormat_t.ofInfo (PackageFormat_t.info ⟨0xB5A7⟩) = ⟨0xB5A7⟩ ∧
    (CRYPTO_AES128 < 2 ^ bitWidth 0 ∧ COMPRESS_ZLIB < 2 ^ bitWidth 2 ∧
      ACK_REQUIRED < 2 ^ bitWidth 4) ∧
    (PackageFormat_t.ofInfo ⟨CRYPTO_AES128, 1, COMPRESS_ZLIB, 300, ACK_REQUIRED⟩).info =
      ⟨CRYPTO_AES128, 1, COMPRESS_ZLIB, 300, ACK_REQUIRED⟩ :=
  PackageFormat_roundtrip 5 1 2 300 1 0xB5A7 (by decide) (by decide) (by decide) (by decide)
    (by decide) (by decide)

/-! ## The sentinel scan -/

theorem sentinelAt_append_left (b c : List Nat) (i : Nat) (h : i + 4 ≤ b.length) :
    sentinelAt (b ++ c) i ↔ sentinelAt b i := by
  unfold sentinelAt
  rw [List.drop_append_of_le_length (by omega),
    List.take_append_of_le_length (by rw [List.length_drop]; omega)]

theorem sentinelAt_keepLast (b c : List Nat) (j : Nat) :
    sentinelAt (keepLast 3 b ++ c) j ↔ sentinelAt (b ++ c) (b.length - 3 + j) := by
  unfold sentinelAt keepLast
  rw [← List.drop_append_of_le_length (by omega), List.drop_drop]
  
/-- C8: keeping the last 3 buffered bytes while `Seeking` loses no frame start. The
sentinel `HEADER_VALUE` is 4 bytes long, so for a buffer `b` in which it does not occur and
any continuation `c`, every occurrence in `b ++ c` starts in the last 3 bytes of `b` or
in `c`, and the occurrences in `keepLast 3 b ++ c` are those of `b ++ c`, shifted by the
number of discarded bytes. -/
theorem keepLast_loses_no_sentinel (b c : List Nat) (hb : ∀ i < b.length, ¬ sentinelAt b i) :
    headerBytes.length = 4 ∧ HEADER_VALUE < 2 ^ 32 ∧
    b.length - (keepLast 3 b).length = b.length - 3 ∧
    (∀ i, sentinelAt (b ++ c) i → b.length - 3 ≤ i) ∧
    (∀ j, sentinelAt (keepLast 3 b ++ c) j ↔ sentinelAt (b ++ c) (b.length - 3 + j)) ∧
    (∀ i, sentinelAt (b ++ c) i →
      ∃ j, i = b.length - 3 + j ∧ sentinelAt (keepLast 3 b ++ c) j) := by
  have h1 : ∀ i, sentinelAt (b ++ c) i → b.length - 3 ≤ i := by
    intro i hi
    by_contra hlt
    exact hb i (by omega) ((sentinelAt_append_left b c i (by omega)).1 hi)
  refine ⟨rfl, by decide, ?_, h1, sentinelAt_keepLast b c, ?_⟩
  · unfold keepLast
    rw [List.length_drop]
    omega
  · intro i hi
    have hle := h1 i hi
    refine ⟨i - (b.length - 3), by omega, ?_⟩
    rw [sentinelAt_keepLast, show b.length - 3 + (i - (b.length - 3)) = i by omega]
    exact hi

theorem keepLast_loses_no_sentinel_witness :
    (∀ i < [1, 2, 0xAA, 0x55, 0xAA].length, ¬ sentinelAt [1, 2, 0xAA, 0x55, 0xAA] i) ∧
    (headerBytes.length = 4 ∧ HEADER_VALUE < 2 ^ 32 ∧
    [1, 2, 0xAA, 0x55, 0xAA].length - (keepLast 3 [1, 2, 0xAA, 0x55, 0xAA]).length =
      [1, 2, 0xAA, 0x55, 0xAA].length - 3 ∧
    (∀ i, sentinelAt ([1, 2, 0xAA, 0x55, 0xAA] ++ [0x55, 9]) i →
      [1, 2, 0xAA, 0x55, 0xAA].length - 3 ≤ i) ∧
    (∀ j, sentinelAt (keepLast 3 [1, 2, 0xAA, 0x55, 0xAA] ++ [0x55, 9]) j ↔
      sentinelAt ([1, 2, 0xAA, 0x55, 0xAA] ++ [0x55, 9]) ([1, 2, 0xAA, 0x55, 0xAA].length - 3 + j)) ∧
    (∀ i, sentinelAt ([1, 2, 0xAA, 0x55, 0xAA] ++ [0x55, 9]) i →
      ∃ j, i = [1, 2, 0xAA, 0x55, 0xAA].length - 3 + j ∧
        sentinelAt (keepLast 3 [1, 2, 0xAA, 0x55, 0xAA] ++ [0x55, 9]) j)) :=
  ⟨by decide, keepLast_loses_no_sentinel [1, 2, 0xAA, 0x55, 0xAA] [0x55, 9] (by decide)⟩

/-- A sentinel split between the buffer and the continuation: it starts at offset 2 of
the whole stream and at offset 0 once the first two bytes are discarded. -/
theorem sentinelAt_example :
    sentinelAt ([1, 2, 0xAA, 0x55, 0xAA] ++ [0x55, 9]) 2 ∧
    sentinelAt (keepLast 3 [1, 2, 0xAA, 0x55, 0xAA] ++ [0x55, 9]) 0 := by
  decide

theorem seek_cons (x : Nat) (xs : List Nat) :
    seek (x :: xs) = if (x :: xs).take 4 = headerBytes then some (x :: xs) else seek xs := rfl

theorem length_of_take_eq_header {l : List Nat} (h : l.take 4 = headerBytes) : 4 ≤ l.length := by
  have := congrArg List.length h
  rw [List.length_take] at this
  simp [headerBytes] at this
  omega

theorem seek_some {b rest : List Nat} (h : seek b = some rest) :
    rest.take 4 = headerBytes ∧ ∃ pre, b = pre ++ rest := by
  induction b with
  | nil => simp [seek] at h
  | cons x xs ih =>
    rw [seek_cons] at h
    split at h
    · rename_i hm
      simp only [Option.some.injEq] at h
      subst h
      exact ⟨hm, [], rfl⟩
    · obtain ⟨h1, pre, h2⟩ := ih h
      exact ⟨h1, x :: pre, by rw [h2]; rfl⟩

theorem seek_some_length {b rest : List Nat} (h : seek b = some rest) :
    4 ≤ rest.length ∧ rest.length ≤ b.length := by
  obtain ⟨h1, pre, h2⟩ := seek_some h
  refine ⟨length_of_take_eq_header h1, ?_⟩
  rw [h2, List.length_append]
  omega

theorem seek_append_some (b c rest : List Nat) (h : seek b = some rest) :
    seek (b ++ c) = some (rest ++ c) := by
  induction b with
  | nil => simp [seek] at h
  | cons x xs ih =>
    have hlen : 4 ≤ (x :: xs).length := by
      have := seek_some_length h
      omega
    rw [List.cons_append, seek_cons, ← List.cons_append, List.take_append_of_le_length hlen]
    rw [seek_cons] at h
    split at h
    · rename_i hm
      simp only [Option.some.injEq] at h
      subst h
      rw [if_pos hm]
    · rename_i hm
      rw [if_neg hm]
      exact ih h

theorem seek_keepLast (b c : List Nat) (h : seek b = none) :
    seek (keepLast 3 b ++ c) = seek (b ++ c) := by
  induction b with
  | nil => rfl
  | cons x xs ih =>
    rw [seek_cons] at h
    split at h
    · simp at h
    · rename_i hm
      by_cases hlen : 4 ≤ (x :: xs).length
      · have hk : keepLast 3 (x :: xs) = keepLast 3 xs := by
          simp only [List.length_cons] at hlen
          unfold keepLast
          rw [List.length_cons, show xs.length + 1 - 3 = (xs.length - 3) + 1 by omega, List.drop_succ_cons]
        rw [hk, ih h, List.cons_append, seek_cons, ← List.cons_append,
          List.take_append_of_le_length hlen, if_neg hm]
      · have hk : keepLast 3 (x :: xs) = x :: xs := by
          unfold keepLast
          rw [show (x :: xs).length - 3 = 0 by omega, List.drop_zero]
        rw [hk]
/-! ## Transitions of the state machine -/

theorem fixedHeaderSize_eq : fixedHeaderSize = 12 := rfl

theorem frameSize_append (b c : List Nat) (h : 12 ≤ b.length) :
    frameSize (b ++ c) = frameSize b := by
  unfold frameSize
  rw [List.getD_append _ _ _ 4 (by omega), List.getD_append _ _ _ 5 (by omega)]

theorem frameCrc_append (b c : List Nat) (h : 12 ≤ b.length) :
    frameCrc (b ++ c) = frameCrc b := by
  unfold frameCrc
  rw [List.getD_append _ _ _ 6 (by omega), List.getD_append _ _ _ 7 (by omega)]

theorem checksumRegion_append (b c : List Nat) (n : Nat) (h : 12 + n ≤ b.length) :
    checksumRegion (b ++ c) n = checksumRegion b n := by
  unfold checksumRegion
  rw [List.drop_append_of_le_length (by omega),
    List.take_append_of_le_length (by rw [List.length_drop]; omega)]

theorem decodeFrame_append (b c : List Nat) (n : Nat) (h : 12 + n ≤ b.length) :
    decodeFrame (b ++ c) n = decodeFrame b n := by
  unfold decodeFrame
  rw [frameCrc_append b c (by omega), fixedHeaderSize_eq,
    List.drop_append_of_le_length (by omega),
    List.take_append_of_le_length (by rw [List.length_drop]; omega),
    List.getD_append _ _ _ 0 (by omega), List.getD_append _ _ _ 1 (by omega),
    List.getD_append _ _ _ 2 (by omega), List.getD_append _ _ _ 3 (by omega),
    List.getD_append _ _ _ 8 (by omega), List.getD_append _ _ _ 9 (by omega),
    List.getD_append _ _ _ 10 (by omega), List.getD_append _ _ _ 11 (by omega)]

/-- A transition that the buffered bytes allow is the same transition when more bytes
follow in the buffer. -/
theorem step_push (cfg : ReassemblerConfig) (r r1 : MaxPB_Receiver_t) (e1 : List FrameEvent)
    (c : List Nat) (hb : Buffered r) (h : step cfg r = some (r1, e1)) :
    step cfg (push r c) = some (push r1 c, e1) := by
  obtain ⟨b, st, sz, mx, w⟩ := r
  cases st
  · -- Seeking
    simp only [step] at h
    cases hs : seek b with
    | none => simp [hs] at h
    | some rest =>
      simp only [hs, Option.some.injEq, Prod.mk.injEq] at h
      obtain ⟨h1, h2⟩ := h
      subst h1 h2
      simp [step, push, seek_append_some b c rest hs]
  · -- HeaderFound
    simp only [step, fixedHeaderSize_eq] at h
    split at h
    · rename_i hl
      have hl' : 12 ≤ b.length + c.length := by omega
      split at h
      · rename_i hz
        simp only [Option.some.injEq, Prod.mk.injEq] at h
        obtain ⟨h1, h2⟩ := h
        subst h1 h2
        simp [step, push, fixedHeaderSize_eq, hl', frameSize_append b c hl, hz]
      · rename_i hz
        simp only [Option.some.injEq, Prod.mk.injEq] at h
        obtain ⟨h1, h2⟩ := h
        subst h1 h2
        simp [step, push, fixedHeaderSize_eq, hl', frameSize_append b c hl, hz]
    · simp at h
  · -- AwaitingPayload
    simp only [Buffered, fixedHeaderSize_eq] at hb
    simp only [step, fixedHeaderSize_eq] at h
    split at h
    · rename_i hm
      simp only [Option.some.injEq, Prod.mk.injEq] at h
      obtain ⟨h1, h2⟩ := h
      subst h1 h2
      simp [step, push, fixedHeaderSize_eq, hm, List.drop_append_of_le_length hb]
    · rename_i hm
      split at h
      · rename_i hl
        have hl' : 12 + sz ≤ b.length + c.length := by omega
        simp only [Option.some.injEq, Prod.mk.injEq] at h
        obtain ⟨h1, h2⟩ := h
        subst h1 h2
        simp [step, push, fixedHeaderSize_eq, hm, hl']
      · simp at h
  · -- Complete
    simp only [Buffered, fixedHeaderSize_eq] at hb
    simp only [step, fixedHeaderSize_eq, Option.some.injEq, Prod.mk.injEq] at h
    obtain ⟨h1, h2⟩ := h
    subst h1 h2
    simp [step, push, fixedHeaderSize_eq, List.drop_append_of_le_length hb,
      checksumRegion_append b c sz hb, frameCrc_append b c (by omega),
      decodeFrame_append b c sz hb]

/-- A transition keeps the buffer consistent with the phase and uses up budget. -/
theorem step_budget (cfg : ReassemblerConfig) (r r1 : MaxPB_Receiver_t) (e1 : List FrameEvent)
    (hb : Buffered r) (h : step cfg r = some (r1, e1)) :
    Buffered r1 ∧ stepBudget r1 < stepBudget r := by
  obtain ⟨b, st, sz, mx, w⟩ := r
  cases st
  · simp only [step] at h
    cases hs : seek b with
    | none => simp [hs] at h
    | some rest =>
      simp only [hs, Option.some.injEq, Prod.mk.injEq] at h
      obtain ⟨h1, h2⟩ := h
      subst h1
      have := seek_some_length hs
      simp [Buffered, stepBudget, phaseRank]
      omega
  · simp only [step, fixedHeaderSize_eq] at h
    split at h
    · rename_i hl
      split at h
      · simp only [Option.some.injEq, Prod.mk.injEq] at h
        obtain ⟨h1, h2⟩ := h
        subst h1
        simp [Buffered, stepBudget, phaseRank, fixedHeaderSize_eq, hl]
      · simp only [Option.some.injEq, Prod.mk.injEq] at h
        obtain ⟨h1, h2⟩ := h
        subst h1
        simp [Buffered, stepBudget, phaseRank, fixedHeaderSize_eq, hl]
    · simp at h
  · simp only [Buffered, fixedHeaderSize_eq] at hb
    simp only [step, fixedHeaderSize_eq] at h
    split at h
    · simp only [Option.some.injEq, Prod.mk.injEq] at h
      obtain ⟨h1, h2⟩ := h
      subst h1
      simp [Buffered, stepBudget, phaseRank]
      omega
    · split at h
      · rename_i hl
        simp only [Option.some.injEq, Prod.mk.injEq] at h
        obtain ⟨h1, h2⟩ := h
        subst h1
        simp [Buffered, stepBudget, phaseRank, fixedHeaderSize_eq, hl]
      · simp at h
  · simp only [Buffered, fixedHeaderSize_eq] at hb
    simp only [step, fixedHeaderSize_eq, Option.some.injEq, Prod.mk.injEq] at h
    obtain ⟨h1, h2⟩ := h
    subst h1
    simp [Buffered, stepBudget, phaseRank]
    omega

/-! ## Runs of the state machine -/

theorem similar_refl (r : MaxPB_Receiver_t) : Similar r r := by
  refine ⟨rfl, rfl, rfl, ?_⟩
  split
  · intro c; rfl
  · rfl

theorem similar_symm {r r' : MaxPB_Receiver_t} (h : Similar r r') : Similar r' r := by
  obtain ⟨h1, h2, h3, h4⟩ := h
  refine ⟨h1.symm, h2.symm, h3.symm, ?_⟩
  rw [← h1]
  split
  · rename_i hs
    rw [if_pos hs] at h4
    intro c
    exact (h4 c).symm
  · rename_i hs
    rw [if_neg hs] at h4
    exact h4.symm

theorem similar_push {r r' : MaxPB_Receiver_t} (h : Similar r r') (c : List Nat) :
    Similar (push r c) (push r' c) := by
  obtain ⟨h1, h2, h3, h4⟩ := h
  refine ⟨h1, h2, h3, ?_⟩
  show (if r.state = .Seeking then ∀ d, seek (r.buffer ++ c ++ d) = seek (r'.buffer ++ c ++ d)
    else r.buffer ++ c = r'.buffer ++ c)
  split
  · rename_i hs
    rw [if_pos hs] at h4
    intro d
    rw [List.append_assoc, List.append_assoc]
    exact h4 (c ++ d)
  · rename_i hs
    rw [if_neg hs] at h4
    rw [h4]

/-- Receivers that are alike make the same transition, to receivers that are alike. -/
theorem similar_step (cfg : ReassemblerConfig) {r r' : MaxPB_Receiver_t} (h : Similar r r') :
    (step cfg r = none → step cfg r' = none) ∧
    (∀ r1 e1, step cfg r = some (r1, e1) →
      ∃ r1', step cfg r' = some (r1', e1) ∧ Similar r1 r1') := by
  obtain ⟨b, st, sz, mx, w⟩ := r
  obtain ⟨b', st', sz', mx', w'⟩ := r'
  obtain ⟨h1, h2, h3, h4⟩ := h
  simp only at h1 h2 h3 h4
  subst h1 h2 h3
  cases st
  · -- Seeking
    simp only [if_true] at h4
    have hs := h4 []
    simp only [List.append_nil] at hs
    constructor
    · intro hn
      simp only [step] at hn ⊢
      rw [← hs]
      cases hq : seek b with
      | none => rfl
      | some rest => simp [hq] at hn
    · intro r1 e1 hn
      simp only [step] at hn ⊢
      rw [← hs]
      cases hq : seek b with
      | none => simp [hq] at hn
      | some rest =>
        simp only [hq, Option.some.injEq, Prod.mk.injEq] at hn
        obtain ⟨hn1, hn2⟩ := hn
        subst hn1 hn2
        exact ⟨_, rfl, rfl, rfl, rfl, by simp⟩
  · -- HeaderFound
    simp only [reduceCtorEq, if_false] at h4
    subst h4
    constructor
    · intro hn
      simp only [step] at hn ⊢
      split at hn
      · split at hn <;> simp at hn
      · rename_i hl
        rw [if_neg hl]
    · intro r1 e1 hn
      simp only [step] at hn ⊢
      split at hn
      · rename_i hl
        rw [if_pos hl]
        split at hn
        · rename_i hz
          simp only [Option.some.injEq, Prod.mk.injEq] at hn
          obtain ⟨hn1, hn2⟩ := hn
          subst hn1 hn2
          rw [if_pos hz]
          exact ⟨_, rfl, rfl, rfl, rfl, by simp⟩
        · rename_i hz
          simp only [Option.some.injEq, Prod.mk.injEq] at hn
          obtain ⟨hn1, hn2⟩ := hn
          subst hn1 hn2
          rw [if_neg hz]
          exact ⟨_, rfl, rfl, rfl, rfl, by simp⟩
      · simp at hn
  · -- AwaitingPayload
    simp only [reduceCtorEq, if_false] at h4
    subst h4
    constructor
    · intro hn
      simp only [step] at hn ⊢
      split at hn
      · simp at hn
      · rename_i hm
        rw [if_neg hm]
        split at hn
        · simp at hn
        · rename_i hl
          rw [if_neg hl]
    · intro r1 e1 hn
      simp only [step] at hn ⊢
      split at hn
      · rename_i hm
        simp only [Option.some.injEq, Prod.mk.injEq] at hn
        obtain ⟨hn1, hn2⟩ := hn
        subst hn1 hn2
        rw [if_pos hm]
        exact ⟨_, rfl, rfl, rfl, rfl, by simp⟩
      · rename_i hm
        rw [if_neg hm]
        split at hn
        · rename_i hl
          simp only [Option.some.injEq, Prod.mk.injEq] at hn
          obtain ⟨hn1, hn2⟩ := hn
          subst hn1 hn2
          rw [if_pos hl]
          exact ⟨_, rfl, rfl, rfl, rfl, by simp⟩
        · simp at hn
  · -- Complete
    simp only [reduceCtorEq, if_false] at h4
    subst h4
    constructor
    · intro hn
      simp [step] at hn
    · intro r1 e1 hn
      simp only [step, Option.some.injEq, Prod.mk.injEq] at hn ⊢
      obtain ⟨hn1, hn2⟩ := hn
      subst hn1 hn2
      exact ⟨_, ⟨rfl, rfl⟩, rfl, rfl, rfl, by simp⟩

/-- Settling reports no frame. -/
theorem framesReady_settle (cfg : ReassemblerConfig) (r : MaxPB_Receiver_t) :
    framesReady (settle cfg r).2 = [] := by
  obtain ⟨b, st, sz, mx, w⟩ := r
  cases st
  · simp only [settle]
    split <;> rfl
  · rfl
  · rfl
  · rfl

/-- A receiver that cannot advance is like the receiver it settles to. -/
theorem similar_settle (cfg : ReassemblerConfig) (r : MaxPB_Receiver_t)
    (hn : step cfg r = none) : Similar r (settle cfg r).1 := by
  obtain ⟨b, st, sz, mx, w⟩ := r
  cases st
  · simp only [step] at hn
    have hq : seek b = none := by
      cases hq : seek b with
      | none => rfl
      | some rest => simp [hq] at hn
    simp only [settle]
    split
    · refine ⟨rfl, rfl, rfl, ?_⟩
      simp only [if_true]
      intro c
      exact (seek_keepLast b c hq).symm
    · exact similar_refl _
  · exact ⟨rfl, rfl, rfl, by simp [settle]⟩
  · exact ⟨rfl, rfl, rfl, by simp [settle]⟩
  · exact similar_refl _

theorem similar_trans {r r' r'' : MaxPB_Receiver_t} (h : Similar r r') (h' : Similar r' r'') :
    Similar r r'' := by
  obtain ⟨h1, h2, h3, h4⟩ := h
  obtain ⟨g1, g2, g3, g4⟩ := h'
  refine ⟨h1.trans g1, h2.trans g2, h3.trans g3, ?_⟩
  rw [← h1] at g4
  split
  · rename_i hs
    rw [if_pos hs] at h4 g4
    intro c
    exact (h4 c).trans (g4 c)
  · rename_i hs
    rw [if_neg hs] at h4 g4
    exact h4.trans g4

/-- Receivers that are alike run to receivers that are alike, reporting the same frames. -/
theorem drives_similar (cfg : ReassemblerConfig) {r t : MaxPB_Receiver_t} {e : List FrameEvent}
    (hd : Drives cfg r t e) : ∀ r', Similar r r' →
    ∃ t' e', Drives cfg r' t' e' ∧ Similar t t' ∧ framesReady e = framesReady e' := by
  induction hd with
  | halt h =>
    rename_i r0
    intro r' hs
    have hn' := (similar_step cfg hs).1 h
    refine ⟨_, _, Drives.halt hn', ?_, ?_⟩
    · exact similar_trans (similar_trans (similar_symm (similar_settle cfg r0 h)) hs) (similar_settle cfg r' hn')
    · rw [framesReady_settle, framesReady_settle]
  | next h _ ih =>
    intro r' hs
    obtain ⟨r1', hs1, hsim⟩ := (similar_step cfg hs).2 _ _ h
    obtain ⟨t', e', hd', hst, he⟩ := ih r1' hsim
    refine ⟨t', _, Drives.next hs1 hd', hst, ?_⟩
    simp only [framesReady, List.filterMap_append] at he ⊢
    rw [he]

theorem drives_det (cfg : ReassemblerConfig) {r t : MaxPB_Receiver_t} {e : List FrameEvent}
    (hd : Drives cfg r t e) : ∀ t' e', Drives cfg r t' e' → t = t' ∧ e = e' := by
  induction hd with
  | halt h =>
    intro t' e' hd'
    cases hd' with
    | halt _ => exact ⟨rfl, rfl⟩
    | next h' _ => rw [h] at h'; cases h'
  | next h _ ih =>
    intro t' e' hd'
    cases hd' with
    | halt h' => rw [h] at h'; cases h'
    | next h' hd'' =>
      rw [h] at h'
      cases h'
      obtain ⟨h1, h2⟩ := ih _ _ hd''
      exact ⟨h1, by rw [h2]⟩

/-- With the budget of the receiver as fuel, `drive` runs the state machine to the point
where it needs more bytes. -/
theorem drive_drives (cfg : ReassemblerConfig) : ∀ (fuel : Nat) (r : MaxPB_Receiver_t),
    Buffered r → stepBudget r < fuel → Drives cfg r (drive cfg fuel r).1 (drive cfg fuel r).2 := by
  intro fuel
  induction fuel with
  | zero => intro r _ h; omega
  | succ n ih =>
    intro r hb hf
    cases hs : step cfg r with
    | none =>
      have : drive cfg (n + 1) r = settle cfg r := by simp [drive, hs]
      rw [this]
      exact Drives.halt hs
    | some p =>
      obtain ⟨r1, e1⟩ := p
      have : drive cfg (n + 1) r = ((drive cfg n r1).1, e1 ++ (drive cfg n r1).2) := by
        simp [drive, hs]
      rw [this]
      obtain ⟨hb1, hlt⟩ := step_budget cfg r r1 e1 hb hs
      exact Drives.next hs (ih r1 hb1 (by omega))

theorem buffered_push {r : MaxPB_Receiver_t} (hb : Buffered r) (c : List Nat) :
    Buffered (push r c) := by
  obtain ⟨b, st, sz, mx, w⟩ := r
  cases st <;> simp only [Buffered, push, List.length_append] at hb ⊢ <;> omega

theorem buffered_settle (cfg : ReassemblerConfig) {r : MaxPB_Receiver_t} (hb : Buffered r) :
    Buffered (settle cfg r).1 := by
  obtain ⟨b, st, sz, mx, w⟩ := r
  cases st
  · simp only [settle]
    split <;> simp [Buffered]
  · simp [Buffered, settle]
  · simpa [Buffered, settle] using hb
  · simpa [Buffered, settle] using hb

/-- A run ends in a receiver whose buffer is consistent with its phase and that cannot
advance without more bytes. -/
theorem drives_final (cfg : ReassemblerConfig) {r t : MaxPB_Receiver_t} {e : List FrameEvent}
    (hd : Drives cfg r t e) : Buffered r → Buffered t ∧ step cfg t = none := by
  induction hd with
  | halt h =>
    rename_i r0
    intro hb
    exact ⟨buffered_settle cfg hb, (similar_step cfg (similar_settle cfg r0 h)).1 h⟩
  | next h _ ih =>
    intro hb
    exact ih (step_budget cfg _ _ _ hb h).1

/-- A run on the buffered bytes, followed by a run after more bytes arrive, reports the
frames of a single run on all the bytes. -/
theorem drives_push (cfg : ReassemblerConfig) {r t : MaxPB_Receiver_t} {e : List FrameEvent}
    (hd : Drives cfg r t e) : Buffered r → ∀ (c : List Nat) (t2 : MaxPB_Receiver_t)
    (e2 : List FrameEvent), Drives cfg (push t c) t2 e2 →
    ∃ t3 e3, Drives cfg (push r c) t3 e3 ∧ Similar t3 t2 ∧
      framesReady e3 = framesReady e ++ framesReady e2 := by
  induction hd with
  | halt h =>
    rename_i r0
    intro _ c t2 e2 hd2
    have hs : Similar (push (settle cfg r0).1 c) (push r0 c) :=
      similar_push (similar_symm (similar_settle cfg r0 h)) c
    obtain ⟨t3, e3, hd3, hst, he⟩ := drives_similar cfg hd2 _ hs
    exact ⟨t3, e3, hd3, similar_symm hst, by rw [framesReady_settle, List.nil_append, he]⟩
  | next h _ ih =>
    intro hb c t2 e2 hd2
    obtain ⟨t3, e3, hd3, hst, he⟩ := ih (step_budget cfg _ _ _ hb h).1 c t2 e2 hd2
    refine ⟨t3, _, Drives.next (step_push cfg _ _ _ c hb h) hd3, hst, ?_⟩
    simp only [framesReady, List.filterMap_append, List.append_assoc] at he ⊢
    rw [he]

/-- What `feed` returns is the run of the state machine on the buffer with the chunk
appended: the fuel `feed` gives `drive` is enough. -/
theorem feed_drives (cfg : ReassemblerConfig) (r : MaxPB_Receiver_t) (chunk : List Nat)
    (hb : Buffered r) :
    Drives cfg (push r chunk) (feed cfg r chunk).1 (feed cfg r chunk).2 := by
  unfold feed
  apply drive_drives cfg _ _ (buffered_push hb chunk)
  have : phaseRank r.state ≤ 3 := by cases r.state <;> simp [phaseRank]
  simp only [stepBudget, push, List.length_append]
  omega

theorem push_push (r : MaxPB_Receiver_t) (c d : List Nat) :
    push (push r c) d = push r (c ++ d) := by
  simp [push]

theorem push_nil (r : MaxPB_Receiver_t) : push r [] = r := by
  simp [push]

/-- Chunk-boundary independence from any receiver that is waiting for bytes. -/
theorem feedAll_frames (cfg : ReassemblerConfig) : ∀ (chunks : List (List Nat))
    (r : MaxPB_Receiver_t), Buffered r → step cfg r = none →
    framesReady (feedAll cfg r chunks).2 = framesReady (feed cfg r chunks.flatten).2 := by
  intro chunks
  induction chunks with
  | nil =>
    intro r hb hn
    have hd := feed_drives cfg r [] hb
    rw [push_nil] at hd
    obtain ⟨-, he⟩ := drives_det cfg (Drives.halt hn) _ _ hd
    simp only [List.flatten_nil, feedAll]
    rw [← he, framesReady_settle]
    rfl
  | cons c cs ih =>
    intro r hb hn
    have hd1 := feed_drives cfg r c hb
    obtain ⟨hb1, hn1⟩ := drives_final cfg hd1 (buffered_push hb c)
    have hd2 := feed_drives cfg (feed cfg r c).1 cs.flatten hb1
    obtain ⟨t3, e3, hd3, -, he3⟩ := drives_push cfg hd1 (buffered_push hb c) cs.flatten _ _ hd2
    rw [push_push] at hd3
    obtain ⟨-, he⟩ := drives_det cfg hd3 _ _ (feed_drives cfg r (c ++ cs.flatten) hb)
    simp only [List.flatten_cons, feedAll]
    rw [← he, he3, ← ih _ hb1 hn1]
    simp only [framesReady, List.filterMap_append]

/-- C7: chunk-boundary independence. For every byte stream and every way of splitting it
into consecutive chunks, feeding the chunks one after another from the initial receiver
reports the same ordered sequence of `FrameReady` events as feeding the whole
concatenation in a single `feed` call. -/
theorem feed_chunk_independent (cfg : ReassemblerConfig) (max_size : Nat)
    (chunks : List (List Nat)) :
    framesReady (feedAll cfg (initReceiver max_size) chunks).2 =
      framesReady (feed cfg (initReceiver max_size) chunks.flatten).2 :=
  feedAll_frames cfg chunks (initReceiver max_size) trivial rfl

/-! ## The reassembler on concrete streams -/

/-- The frame `AA 55 AA 55 00 02 0A 00 00 01 00 00 04 05`, fed in one call, is reported
as one `FrameReady` with `message_type` 1, `size` 2 and an all-zero format. -/
theorem feed_one_frame :
    (feed ⟨sumChecksum, 16⟩ (initReceiver 100)
      [0xAA, 0x55, 0xAA, 0x55, 0, 2, 10, 0, 0, 1, 0, 0, 4, 5]).2 =
      [.FrameReady ⟨HEADER_VALUE, 2, 10, MAXPB_CMD_POSITION, ⟨0⟩, [4, 5]⟩] := by
  decide

/-- The same frame after noise, with the sentinel split across chunks, is reported once
the last chunk arrives. -/
theorem feedAll_split_frame :
    framesReady (feedAll ⟨sumChecksum, 4⟩ (initReceiver 100)
      [[1, 2, 3, 4, 5, 0xAA, 0x55], [0xAA], [0x55, 0, 2, 10, 0, 0, 1], [0, 0, 4, 5]]).2 =
      [⟨HEADER_VALUE, 2, 10, MAXPB_CMD_POSITION, ⟨0⟩, [4, 5]⟩] := by
  decide

/-- The frame with its last payload byte altered is rejected for its checksum, and a
frame longer than `max_size` for its size. -/
theorem feed_rejects :
    (feed ⟨sumChecksum, 16⟩ (initReceiver 100)
      [0xAA, 0x55, 0xAA, 0x55, 0, 2, 10, 0, 0, 1, 0, 0, 4, 6]).2 =
      [.FrameRejected .ChecksumMismatch] ∧
    (feed ⟨sumChecksum, 16⟩ (initReceiver 1)
      [0xAA, 0x55, 0xAA, 0x55, 0, 2, 10, 0, 0, 1, 0, 0, 4, 5]).2 =
      [.FrameRejected .SizeOutOfBounds] := by
  decide

/-- The rejections for noise do depend on the chunking: seven bytes of noise fed as 5 + 2
are reported twice with a scan ceiling of 4, and once when fed in one call. -/
theorem noise_events_depend_on_chunks :
    (feedAll ⟨sumChecksum, 4⟩ (initReceiver 100) [[1, 2, 3, 4, 5], [6, 7]]).2 =
      [.FrameRejected .DesyncNoise, .FrameRejected .DesyncNoise] ∧
    (feed ⟨sumChecksum, 4⟩ (initReceiver 100) [1, 2, 3, 4, 5, 6, 7]).2 =
      [.FrameRejected .DesyncNoise] := by
  decide

end MaxPB
